import Mathlib

/-
Verification development for the Lox-family tree-walking interpreter
(src/lox/ast.py, src/lox/runtime.py, src/lox/transformer.py).

The Python sources are shallowly embedded below:
  * runtime values become the inductive `Value`;
  * CPython floats are modelled by the exact fraction type `PyFloat`
    (integer numerator, natural denominator).  All float arithmetic the
    claims exercise involves small whole numbers and simple fractions,
    for which CPython float arithmetic is exact, so exact fractions are
    a faithful model of every case settled here;
  * the AST classes of ast.py become the mutual inductives `Expr`/`Stmt`;
  * the mutable environment chain (class Ctx, file ctx.py, which is not
    part of the given sources) is modelled from the spec as a store of
    numbered environments, each an association list plus an optional
    parent index;
  * `eval` methods become fuel-indexed evaluation functions returning
    `Except Err`; Python's LoxReturn exception becomes the `Ctrl.ret`
    control signal threaded through statement results.
-/

namespace Lox

/-! ## Python floats as exact fractions -/

/-- Exact model of a CPython float: `num / den`.  Every float reachable in
the programs considered here is an exact dyadic value, where CPython
arithmetic is exact, so fraction arithmetic below agrees with it.
`den` is never zero for reachable values. -/
structure PyFloat where
  num : Int
  den : Nat
deriving DecidableEq

/-- Python `float.is_integer`. -/
def PyFloat.isInteger (x : PyFloat) : Bool := x.num % (x.den : Int) == 0

/-- Python `int(x)` on a float: truncation toward zero. -/
def PyFloat.toInt (x : PyFloat) : Int := x.num.tdiv (x.den : Int)

def PyFloat.ofInt (n : Int) : PyFloat := ⟨n, 1⟩

def PyFloat.add (x y : PyFloat) : PyFloat := ⟨x.num * y.den + y.num * x.den, x.den * y.den⟩

def PyFloat.sub (x y : PyFloat) : PyFloat := ⟨x.num * y.den - y.num * x.den, x.den * y.den⟩

def PyFloat.mul (x y : PyFloat) : PyFloat := ⟨x.num * y.num, x.den * y.den⟩

/-- The integer `⌊x / y⌋` (Python float floor-division produces this value,
as a float). -/
def PyFloat.floorDiv (x y : PyFloat) : Int := Int.fdiv (x.num * y.den) ((x.den : Int) * y.num)

/-- Numeric order: `x < y`.  Denominators are nonnegative, so comparing
cross products is the numeric order for all reachable values. -/
def PyFloat.ltB (x y : PyFloat) : Bool := x.num * y.den < y.num * x.den

def PyFloat.leB (x y : PyFloat) : Bool := x.num * y.den ≤ y.num * x.den

def PyFloat.eqB (x y : PyFloat) : Bool := x.num * y.den == y.num * x.den

/-! ## Runtime values

In ast.py the alias `Value = bool | str | float | None` names the type of
literals; at runtime the domain additionally contains Python ints
(produced by `auto_convert` and by the collapsing step of `BinOp.eval`)
and LoxFunction objects.  `Value` below is the runtime domain; function
values are references into the store's table of function objects. -/

inductive Value where
  | nil
  | bool (b : Bool)
  | int (n : Int)
  | float (x : PyFloat)
  | str (s : String)
  | fn (id : Nat)
deriving DecidableEq

/-- The literal domain: exactly ast.py's declared alias
`Value = bool | str | float | None` (the type of `Literal.value`). -/
inductive Const where
  | nil
  | bool (b : Bool)
  | float (x : PyFloat)
  | str (s : String)
deriving DecidableEq

def Const.toValue : Const → Value
  | .nil => .nil
  | .bool b => .bool b
  | .float x => .float x
  | .str s => .str s

/-- ast.py `Param`: parameter name plus unused type annotation. -/
structure Param where
  name : String
  typeAnn : Option String
deriving DecidableEq

/-- Keys of an environment's binding table.  Python dict keys here are
strings at every site except `LoxFunction.call`, which passes the whole
`Param` object to `var_def` (runtime.py zips `self.params`, a list of
`Param`, not the unused `param_names` of `Function.eval`), so the key
domain is strings plus `Param` objects. -/
inductive BindKey where
  | name (s : String)
  | param (p : Param)
deriving DecidableEq

/-! ## Coercion and truthiness helpers (ast.py) -/

/-- ast.py `is_implicit_int`: nonempty name whose first letter is one of
i, j, k, l, m, n. -/
def is_implicit_int (name : String) : Bool :=
  match name.data with
  | [] => false
  | c :: _ => c == 'i' || c == 'j' || c == 'k' || c == 'l' || c == 'm' || c == 'n'

/-- Python `str.isdigit` restricted to ASCII digits (the only digit
strings arising in these sources and claims); true on a nonempty
all-digit string. -/
def isdigitStr (s : String) : Bool := !s.data.isEmpty && s.data.all Char.isDigit

/-- Base-10 value of a digit string, as `int(s)` computes it. -/
def strToInt (s : String) : Int :=
  (s.data.foldl (fun acc c => acc * 10 + (c.toNat - 48)) 0 : Nat)

/-- ast.py `auto_convert`: for implicit-int names, digit strings parse to
int, floats truncate to int, bools map to 0/1; everything else (and every
value under a non-implicit name) passes through unchanged. -/
def auto_convert (name : String) (value : Value) : Value :=
  if is_implicit_int name then
    match value with
    | .str s => if isdigitStr s then .int (strToInt s) else .str s
    | .float x => .int x.toInt
    | .bool b => .int (if b then 1 else 0)
    | v => v
  else value

/-- ast.py `is_truthy`: only `nil` and `false` are falsy. -/
def is_truthy : Value → Bool
  | .nil => false
  | .bool b => b
  | _ => true

/-- CPython `bool(v)` on the runtime domain: `operator.not_` (bound by the
transformer's `not_` rule) negates this, not `is_truthy`. -/
def pythonBool : Value → Bool
  | .nil => false
  | .bool b => b
  | .int n => n != 0
  | .float x => x.num != 0
  | .str s => s != ""
  | .fn _ => true

/-- Decimal expansion of the fractional part `r / den` (at most 17 digits;
exact for every value rendered in this development). -/
def fracDigits : Nat → Nat → Nat → String
  | 0, _, _ => ""
  | _, 0, _ => ""
  | budget + 1, r, den =>
    (Nat.repr (r * 10 / den)) ++ fracDigits budget (r * 10 % den) den

/-- Text of a non-integral float, as `str(v)` renders the dyadic values
used here (sign, integer part, dot, fraction digits). -/
def PyFloat.render (x : PyFloat) : String :=
  let sgn := if x.num < 0 then "-" else ""
  let n := x.num.natAbs
  sgn ++ Nat.repr (n / x.den) ++ "." ++ fracDigits 17 (n % x.den) x.den

/-- Placeholder text of a function value, standing in for the dataclass
repr Python would print; its exact form is outside every claim. -/
def fnRepr (id : Nat) : String := "LoxFunction#" ++ Nat.repr id

/-- ast.py `lox_str`: nil, lowercase booleans, integral floats without a
fractional suffix, every other value via `str`. -/
def lox_str : Value → String
  | .nil => "nil"
  | .bool b => if b then "true" else "false"
  | .float x => if x.isInteger then (x.toInt).repr else x.render
  | .int n => n.repr
  | .str s => s
  | .fn id => fnRepr id

/-! ## Operator tags

transformer.py binds each grammar operator to a primitive from
runtime.py: add, sub, mul, `div` to `floordiv`, the comparisons, and
`not_`/`neg` for the unary rules. -/

inductive BinTag where
  | add
  | sub
  | mul
  | floordiv
  | gt
  | lt
  | ge
  | le
  | eq
  | ne
deriving DecidableEq

inductive UnTag where
  | not_
  | neg
deriving DecidableEq

/-! ## Syntax tree (ast.py node classes) -/

mutual

inductive Expr where
  | Literal (value : Const)
  | Var (name : String)
  | BinOp (left right : Expr) (op : BinTag)
  | And (left right : Expr)
  | Or (left right : Expr)
  | UnaryOp (op : UnTag) (value : Expr)
  | Call (obj : Expr) (params : List Expr)
  | Assign (name : String) (value : Expr)
  | Setattr (obj : Expr) (attr : String) (value : Expr)

inductive Stmt where
  | exprStmt (e : Expr)
  | Print (expr : Expr)
  | Return (value : Option Expr)
  | VarDef (name : String) (value : Option Expr) (typeAnn : Option String)
  | If (cond : Expr) (thenBranch : Stmt) (elseBranch : Option Stmt)
  | While (expr : Expr) (stmt : Stmt)
  | DoWhileStmt (body : Stmt) (condition : Expr)
  | Block (stmts : List Stmt)
  | Function (name : String) (params : List Param) (body : List Stmt)

end

/- `Stmt.exprStmt` is the typed-embedding image of the transformer's
pass-through `expr_stmt` rule: Python stores bare expression nodes in
statement lists and evaluates them for effect. `Stmt.Function.body` is
the statement list of the `Block` body node. -/

/-! ## Runtime errors

Python raises NameError / TypeError / ZeroDivisionError / AttributeError
with message strings; the constructors below carry the same data those
messages report. `outOfFuel` is the embedding's marker for exhausted
evaluation fuel, and `internalBadFnRef` marks a dangling function
reference, which no reachable store produces. -/

inductive Err where
  | undefinedVariable (name : String)
  | notCallable (callee : Expr)
  | arity (expected actual : Nat)
  | typeError
  | zeroDivision
  | attributeError (attr : String)
  | internalBadFnRef
  | outOfFuel

/-! ## Primitive binary and unary operations (runtime.py / operator module)

`BinOp.op` is a Python callable; the transformer installs exactly the
primitives tagged by `BinTag`, so their CPython semantics on the runtime
domain is spelled out here: bools act as the ints 0/1 in arithmetic and
comparisons, an int meeting a float promotes to float, strings
concatenate under `add` and repeat under `mul` with an int, and every
other combination raises TypeError. -/

/-- A value as a Python `int` operand (bools are ints 0/1); `none` for
floats and non-numbers. -/
def Value.asIntish : Value → Option Int
  | .int n => some n
  | .bool b => some (if b then 1 else 0)
  | _ => none

/-- A value as a Python numeric operand promoted to float. -/
def Value.asNum : Value → Option PyFloat
  | .int n => some (PyFloat.ofInt n)
  | .bool b => some (PyFloat.ofInt (if b then 1 else 0))
  | .float x => some x
  | _ => none

/-- Shared arithmetic shape: int result when both operands are
int/bool, float result when a float is involved, TypeError otherwise. -/
def numeric2 (fi : Int → Int → Int) (ff : PyFloat → PyFloat → PyFloat)
    (l r : Value) : Except Err Value :=
  match l.asIntish, r.asIntish with
  | some a, some b => .ok (.int (fi a b))
  | _, _ =>
    match l.asNum, r.asNum with
    | some x, some y => .ok (.float (ff x y))
    | _, _ => .error .typeError

/-- Python string repetition `s * n` (empty for nonpositive counts). -/
def strRepeat (s : String) (n : Int) : String :=
  (List.replicate n.toNat s).foldl (· ++ ·) ""

/-- Python `==` on the runtime domain: numeric equality across
bool/int/float, structural equality on strings and nil; function objects
compare by identity of the underlying object. -/
def pyEq (l r : Value) : Bool :=
  match l.asNum, r.asNum with
  | some x, some y => x.eqB y
  | _, _ =>
    match l, r with
    | .str s, .str t => s == t
    | .nil, .nil => true
    | .fn i, .fn j => i == j
    | _, _ => false

/-- Shared comparison shape: numeric comparison with promotion, or
lexicographic string comparison; TypeError otherwise. -/
def compare2 (fnum : PyFloat → PyFloat → Bool) (fstr : String → String → Bool)
    (l r : Value) : Except Err Value :=
  match l, r with
  | .str s, .str t => .ok (.bool (fstr s t))
  | _, _ =>
    match l.asNum, r.asNum with
    | some x, some y => .ok (.bool (fnum x y))
    | _, _ => .error .typeError

/-- The primitive operation each `BinTag` names, as the operator module
computes it on the runtime domain. -/
def applyBin : BinTag → Value → Value → Except Err Value
  | .add, l, r =>
    match l, r with
    | .str s, .str t => .ok (.str (s ++ t))
    | _, _ => numeric2 (· + ·) PyFloat.add l r
  | .sub, l, r => numeric2 (· - ·) PyFloat.sub l r
  | .mul, l, r =>
    match l, r with
    | .str s, _ =>
      match r.asIntish with
      | some n => .ok (.str (strRepeat s n))
      | none => .error .typeError
    | _, .str t =>
      match l.asIntish with
      | some n => .ok (.str (strRepeat t n))
      | none => .error .typeError
    | _, _ => numeric2 (· * ·) PyFloat.mul l r
  | .floordiv, l, r =>
    match l.asIntish, r.asIntish with
    | some a, some b => if b = 0 then .error .zeroDivision else .ok (.int (Int.fdiv a b))
    | _, _ =>
      match l.asNum, r.asNum with
      | some x, some y =>
        if y.num = 0 then .error .zeroDivision
        else .ok (.float (PyFloat.ofInt (x.floorDiv y)))
      | _, _ => .error .typeError
  | .gt, l, r => compare2 (fun x y => y.ltB x) (fun s t => decide (t < s)) l r
  | .lt, l, r => compare2 PyFloat.ltB (fun s t => decide (s < t)) l r
  | .ge, l, r => compare2 (fun x y => y.leB x) (fun s t => decide (t ≤ s)) l r
  | .le, l, r => compare2 PyFloat.leB (fun s t => decide (s ≤ t)) l r
  | .eq, l, r => .ok (.bool (pyEq l r))
  | .ne, l, r => .ok (.bool (!pyEq l r))

/-- `BinOp.eval` after both operands are evaluated: apply the primitive,
then collapse the result to an int exactly when both operands are floats
holding whole values and the raw result is itself a float. -/
def evalBinVals (op : BinTag) (lv rv : Value) : Except Err Value :=
  match applyBin op lv rv with
  | .error er => .error er
  | .ok result =>
    match lv, rv, result with
    | .float lx, .float rx, .float res =>
      if lx.isInteger && rx.isInteger then .ok (.int (PyFloat.toInt res))
      else .ok (.float res)
    | _, _, _ => .ok result

/-- `UnaryOp.eval`'s primitives: `operator.not_` is host boolean negation
of `bool(v)`, and `operator.neg` is arithmetic negation. -/
def applyUn : UnTag → Value → Except Err Value
  | .not_, v => .ok (.bool (!pythonBool v))
  | .neg, v =>
    match v with
    | .int n => .ok (.int (-n))
    | .float x => .ok (.float ⟨-x.num, x.den⟩)
    | .bool b => .ok (.int (if b then -1 else 0))
    | _ => .error .typeError

/-! ## Environments and the store -/

/-- Modelled from the spec: ctx.py (class `Ctx`) is not among the given
sources; spec §3 and §4.1 describe an environment as an ordered binding
table plus an optional reference to a parent environment.  Environments
live in the store's `envs` table and refer to their parent by index;
every parent is created before its children, so a parent index is
strictly smaller than the child's own index. -/
structure Env where
  scope : List (BindKey × Value)
  parent : Option Nat
deriving DecidableEq

/-- runtime.py `LoxFunction`: name, params (the `Param` objects that
`Function.eval` passes, despite the `list[str]` annotation), the body
block's statements, the captured defining environment, plus the
attribute table Python object instances carry (the target of `Setattr`).
Reassignment of the dataclass fields themselves through `setattr` is not
modelled; no claim touches it. -/
structure LoxFunction where
  name : String
  params : List Param
  body : List Stmt
  closure : Nat
  attrs : List (String × Value)

/-- The mutable world: all environments ever created, all function
objects ever created, and the text printed so far.  Python mutates
environments in place through shared references; here every mutation
produces the updated store, and environment references are indices. -/
structure Store where
  envs : List Env
  funcs : List LoxFunction
  output : List String

/-- Overwrite-or-append on a binding table; spec §4.1: `define`
"inserts/overwrites a binding in THIS environment only". -/
def scopeSet : List (BindKey × Value) → BindKey → Value → List (BindKey × Value)
  | [], k, v => [(k, v)]
  | (k2, w) :: rest, k, v =>
    if k2 = k then (k, v) :: rest else (k2, w) :: scopeSet rest k v

def scopeFind : List (BindKey × Value) → BindKey → Option Value
  | [], _ => none
  | (k2, w) :: rest, k => if k2 = k then some w else scopeFind rest k

/-- `Ctx(scope={}, parent=ctx)`: append a fresh empty environment; its
index is the store's previous `envs.length`. -/
def Store.pushEnv (σ : Store) (parent : Option Nat) : Store :=
  { σ with envs := σ.envs ++ [⟨[], parent⟩] }

/-- Modelled from the spec: `Ctx.var_def` / §4.1 `define` — bind in this
environment only, always succeeding.  (An out-of-range index leaves the
store unchanged; the interpreter never produces one.) -/
def Store.defineIn (σ : Store) (e : Nat) (k : BindKey) (v : Value) : Store :=
  match σ.envs[e]? with
  | none => σ
  | some env => { σ with envs := σ.envs.set e ⟨scopeSet env.scope k v, env.parent⟩ }

/-- Chain lookup, running on explicit fuel so that it computes by kernel
reduction; `e + 1` steps always suffice because parent indices strictly
decrease along a chain. -/
def lookupAux (σ : Store) : Nat → Nat → String → Except Err Value
  | 0, _, name => .error (.undefinedVariable name)
  | fuel + 1, e, name =>
    match σ.envs[e]? with
    | none => .error (.undefinedVariable name)
    | some env =>
      match scopeFind env.scope (.name name) with
      | some v => .ok v
      | none =>
        match env.parent with
        | none => .error (.undefinedVariable name)
        | some p => lookupAux σ fuel p name

/-- Modelled from the spec: `Ctx.__getitem__` / §4.1 `lookup` — check the
local bindings, else delegate to the parent, else UndefinedVariable
(ast.py's `Var.eval` turns the lookup failure into its NameError). -/
def Store.lookupIn (σ : Store) (e : Nat) (name : String) : Except Err Value :=
  lookupAux σ (e + 1) e name

def assignAux (σ : Store) : Nat → Nat → String → Value → Except Err Store
  | 0, _, name, _ => .error (.undefinedVariable name)
  | fuel + 1, e, name, v =>
    match σ.envs[e]? with
    | none => .error (.undefinedVariable name)
    | some env =>
      match scopeFind env.scope (.name name) with
      | some _ =>
        .ok { σ with envs := σ.envs.set e ⟨scopeSet env.scope (.name name) v, env.parent⟩ }
      | none =>
        match env.parent with
        | none => .error (.undefinedVariable name)
        | some p => assignAux σ fuel p name v

/-- Modelled from the spec: `Ctx.__setitem__` / §4.1 `assign` — overwrite
the binding in the nearest enclosing environment that already defines
the name; UndefinedVariable when none does. -/
def Store.assignChain (σ : Store) (e : Nat) (name : String) (v : Value) : Except Err Store :=
  assignAux σ (e + 1) e name v

def setStrField : List (String × Value) → String → Value → List (String × Value)
  | [], a, v => [(a, v)]
  | (a2, w) :: rest, a, v =>
    if a2 = a then (a, v) :: rest else (a2, w) :: setStrField rest a v

/-- `setattr(obj, attr, v)` on a function object: update its attribute
table. -/
def Store.setFnAttr (σ : Store) (id : Nat) (attr : String) (v : Value) : Store :=
  match σ.funcs[id]? with
  | none => σ
  | some f => { σ with funcs := σ.funcs.set id { f with attrs := setStrField f.attrs attr v } }

/-- runtime.py `LoxFunction.call` parameter binding:
`for param_name, arg_value in zip(self.params, args): ctx.var_def(param_name, arg_value)` —
note the keys are the `Param` objects themselves. -/
def bindParams : Store → Nat → List Param → List Value → Store
  | σ, _, [], _ => σ
  | σ, _, _, [] => σ
  | σ, e, p :: ps, a :: rest => bindParams (σ.defineIn e (.param p) a) e ps rest

/-- The control outcome of a statement: fall through to the next
statement, or unwind with Python's LoxReturn exception carrying a
value. -/
inductive Ctrl where
  | next
  | ret (v : Value)
deriving DecidableEq

/-! ## The evaluator

One fuel-indexed function per `eval` method.  Every recursive call
consumes one unit of fuel, so any terminating Python evaluation is
reproduced exactly by every sufficiently large fuel; `Err.outOfFuel`
only reports exhaustion.  `env` is the index of the current
environment. -/

mutual

/-- `Expr.eval`: per-node expression semantics of ast.py. -/
def evalExpr : Nat → Expr → Nat → Store → Except Err (Value × Store)
  | 0, _, _, _ => .error .outOfFuel
  | fuel + 1, e, env, σ =>
    match e with
    | .Literal c => .ok (c.toValue, σ)
    | .Var name =>
      match σ.lookupIn env name with
      | .error er => .error er
      | .ok v => .ok (v, σ)
    | .BinOp l r op =>
      match evalExpr fuel l env σ with
      | .error er => .error er
      | .ok (lv, σ1) =>
        match evalExpr fuel r env σ1 with
        | .error er => .error er
        | .ok (rv, σ2) =>
          match evalBinVals op lv rv with
          | .error er => .error er
          | .ok res => .ok (res, σ2)
    | .And l r =>
      match evalExpr fuel l env σ with
      | .error er => .error er
      | .ok (lv, σ1) =>
        if is_truthy lv then evalExpr fuel r env σ1 else .ok (lv, σ1)
    | .Or l r =>
      match evalExpr fuel l env σ with
      | .error er => .error er
      | .ok (lv, σ1) =>
        if is_truthy lv then .ok (lv, σ1) else evalExpr fuel r env σ1
    | .UnaryOp op ve =>
      match evalExpr fuel ve env σ with
      | .error er => .error er
      | .ok (v, σ1) =>
        match applyUn op v with
        | .error er => .error er
        | .ok res => .ok (res, σ1)
    | .Call obj params =>
      match evalExpr fuel obj env σ with
      | .error er => .error er
      | .ok (ov, σ1) =>
        match evalExprs fuel params env σ1 with
        | .error er => .error er
        | .ok (argv, σ2) =>
          match ov with
          | .fn id =>
            match σ2.funcs[id]? with
            | some f => LoxFunction.call fuel f argv σ2
            | none => .error .internalBadFnRef
          | _ => .error (.notCallable obj)
    | .Assign name ve =>
      match evalExpr fuel ve env σ with
      | .error er => .error er
      | .ok (v, σ1) =>
        match σ1.assignChain env name (auto_convert name v) with
        | .error er => .error er
        | .ok σ2 => .ok (auto_convert name v, σ2)
    | .Setattr objE attr ve =>
      match evalExpr fuel objE env σ with
      | .error er => .error er
      | .ok (ov, σ1) =>
        match evalExpr fuel ve env σ1 with
        | .error er => .error er
        | .ok (v, σ2) =>
          match ov with
          | .fn id => .ok (auto_convert attr v, σ2.setFnAttr id attr (auto_convert attr v))
          | _ => .error (.attributeError attr)
termination_by structural fuel _ _ _ => fuel

/-- Left-to-right evaluation of the argument list of a `Call`. -/
def evalExprs : Nat → List Expr → Nat → Store → Except Err (List Value × Store)
  | 0, _, _, _ => .error .outOfFuel
  | fuel + 1, es, env, σ =>
    match es with
    | [] => .ok ([], σ)
    | e :: rest =>
      match evalExpr fuel e env σ with
      | .error er => .error er
      | .ok (v, σ1) =>
        match evalExprs fuel rest env σ1 with
        | .error er => .error er
        | .ok (vs, σ2) => .ok (v :: vs, σ2)
termination_by structural fuel _ _ _ => fuel

/-- `Stmt.eval`: per-node statement semantics of ast.py.  A `Ctrl.ret`
outcome is Python's LoxReturn exception in flight: every construct
passes it straight out. -/
def evalStmt : Nat → Stmt → Nat → Store → Except Err (Ctrl × Store)
  | 0, _, _, _ => .error .outOfFuel
  | fuel + 1, s, env, σ =>
    match s with
    | .exprStmt e =>
      match evalExpr fuel e env σ with
      | .error er => .error er
      | .ok (_, σ1) => .ok (.next, σ1)
    | .Print e =>
      match evalExpr fuel e env σ with
      | .error er => .error er
      | .ok (v, σ1) => .ok (.next, { σ1 with output := σ1.output ++ [lox_str v] })
    | .Return veOpt =>
      match veOpt with
      | none => .ok (.ret .nil, σ)
      | some ve =>
        match evalExpr fuel ve env σ with
        | .error er => .error er
        | .ok (v, σ1) => .ok (.ret v, σ1)
    | .VarDef name veOpt _ =>
      match veOpt with
      | none => .ok (.next, σ.defineIn env (.name name) (auto_convert name .nil))
      | some ve =>
        match evalExpr fuel ve env σ with
        | .error er => .error er
        | .ok (v, σ1) => .ok (.next, σ1.defineIn env (.name name) (auto_convert name v))
    | .If cond thenB elseB =>
      match evalExpr fuel cond env σ with
      | .error er => .error er
      | .ok (v, σ1) =>
        if is_truthy v then evalStmt fuel thenB env σ1
        else
          match elseB with
          | some sb => evalStmt fuel sb env σ1
          | none => .ok (.next, σ1)
    | .While cond body =>
      match evalExpr fuel cond env σ with
      | .error er => .error er
      | .ok (v, σ1) =>
        if is_truthy v then
          match evalStmt fuel body env σ1 with
          | .error er => .error er
          | .ok (.ret rv, σ2) => .ok (.ret rv, σ2)
          | .ok (.next, σ2) => evalStmt fuel (.While cond body) env σ2
        else .ok (.next, σ1)
    | .DoWhileStmt body cond =>
      match evalStmt fuel body env σ with
      | .error er => .error er
      | .ok (.ret rv, σ1) => .ok (.ret rv, σ1)
      | .ok (.next, σ1) =>
        match evalExpr fuel cond env σ1 with
        | .error er => .error er
        | .ok (v, σ2) =>
          if is_truthy v then evalStmt fuel (.DoWhileStmt body cond) env σ2
          else .ok (.next, σ2)
    | .Block stmts => evalStmts fuel stmts σ.envs.length (σ.pushEnv (some env))
    | .Function name params body =>
      let σ1 : Store := { σ with funcs := σ.funcs ++ [⟨name, params, body, env, []⟩] }
      .ok (.next, σ1.defineIn env (.name name) (.fn σ.funcs.length))
termination_by structural fuel _ _ _ => fuel

/-- Statement-sequence evaluation (the loops of `Program.eval` and
`Block.eval`): stop at the first error or in-flight return. -/
def evalStmts : Nat → List Stmt → Nat → Store → Except Err (Ctrl × Store)
  | 0, _, _, _ => .error .outOfFuel
  | fuel + 1, ss, env, σ =>
    match ss with
    | [] => .ok (.next, σ)
    | s :: rest =>
      match evalStmt fuel s env σ with
      | .error er => .error er
      | .ok (.ret v, σ1) => .ok (.ret v, σ1)
      | .ok (.next, σ1) => evalStmts fuel rest env σ1
termination_by structural fuel _ _ _ => fuel

/-- runtime.py `LoxFunction.call`: arity check, fresh frame environment
whose parent is the captured closure, parameter binding, then the body —
a `Block` node — is evaluated against the frame, and a LoxReturn caught
here yields its value while normal completion yields nil. -/
def LoxFunction.call : Nat → LoxFunction → List Value → Store → Except Err (Value × Store)
  | 0, _, _, _ => .error .outOfFuel
  | fuel + 1, f, args, σ =>
    if args.length ≠ f.params.length then .error (.arity f.params.length args.length)
    else
      let frame := σ.envs.length
      let σ1 := bindParams (σ.pushEnv (some f.closure)) frame f.params args
      match evalStmt fuel (.Block f.body) frame σ1 with
      | .error er => .error er
      | .ok (.ret v, σ2) => .ok (v, σ2)
      | .ok (.next, σ2) => .ok (.nil, σ2)
termination_by structural fuel _ _ _ => fuel

end

/-- `Program.eval` against a root environment at index 0. -/
def evalProgram (fuel : Nat) (stmts : List Stmt) (σ : Store) : Except Err (Ctrl × Store) :=
  evalStmts fuel stmts 0 σ

/-- The store holding only a root environment, before any evaluation. -/
def initStore : Store := ⟨[⟨[], none⟩], [], []⟩

/-! ## For-loop construction (transformer.py `build_for`) -/

/-- Failure of tree construction.  `tokenNameUndefined` is the NameError
CPython raises inside `build_for`: the guard `isinstance(init, Token)`
names `Token`, but transformer.py imports only `Transformer` and
`v_args` from lark and star-imports ast.py, which does not define
`Token`, so evaluating the guard fails whenever it is reached. -/
inductive BuildErr where
  | tokenNameUndefined
deriving DecidableEq

/-- transformer.py `build_for`: wrap the body with the increment when one
exists, default a missing condition to the literal `true`, build the
`While` node, then test the init clause.  `init is not None and not
isinstance(init, Token)` short-circuits: with no init the guard is not
reached and the bare while block is returned; with an init clause the
name `Token` is evaluated and raises NameError (see `BuildErr`). -/
def build_for (init : Option Stmt) (cond : Option Expr) (incr : Option Expr)
    (body : Stmt) : Except BuildErr Stmt :=
  let body2 :=
    match incr with
    | some i => Stmt.Block [body, Stmt.exprStmt i]
    | none => body
  let cond2 :=
    match cond with
    | some c => c
    | none => Expr.Literal (Const.bool true)
  let while_loop := Stmt.While cond2 body2
  match init with
  | some _ => .error .tokenNameUndefined
  | none => .ok (Stmt.Block [while_loop])

/-! ## Vocabulary of the claims -/

/-- From the spec's words (§4.2): a value that is a "whole-valued
number" — an int, or a float holding an integral quantity. -/
def wholeNumber : Value → Bool
  | .int _ => true
  | .float x => x.isInteger
  | _ => false

/-- A value in integer representation (a Python int). -/
def isIntValue : Value → Bool
  | .int _ => true
  | _ => false

/-- Python `callable` on the runtime domain: exactly function values. -/
def isCallable : Value → Bool
  | .fn _ => true
  | _ => false

/-- A float value holding a whole number — the only operand shape whose
wholeness `BinOp.eval`'s collapse test actually inspects. -/
def floatWhole : Value → Bool
  | .float x => x.isInteger
  | _ => false

/-! ## Helper lemmas -/

theorem auto_convert_nil (name : String) : auto_convert name .nil = .nil := by
  unfold auto_convert
  split <;> rfl

theorem auto_convert_int (name : String) (n : Int) : auto_convert name (.int n) = .int n := by
  unfold auto_convert
  split <;> rfl

theorem auto_convert_fn (name : String) (id : Nat) : auto_convert name (.fn id) = .fn id := by
  unfold auto_convert
  split <;> rfl

theorem scopeFind_scopeSet (sc : List (BindKey × Value)) (k : BindKey) (v : Value) :
    scopeFind (scopeSet sc k v) k = some v := by
  induction sc with
  | nil => simp [scopeSet, scopeFind]
  | cons hd tl ih =>
    obtain ⟨k2, w⟩ := hd
    by_cases hk : k2 = k
    · simp [scopeSet, scopeFind, hk]
    · simp [scopeSet, scopeFind, hk, ih]

/-! ## C3 -/

/-- C3: the for-loop construction step.  The incr-wrapping, the `true`
default for a missing condition, and the `While` node are built as the
claim describes, and a for-loop with no initializer is produced intact;
but the moment an init clause is present, `build_for` evaluates the name
`Token`, which transformer.py never imports, and the spec's own example
`for (i = 0; i < 3; i = i + 1) print i;` dies with NameError at
tree-construction time instead of printing 0, 1, 2. -/
theorem build_for_init_raises_name_error :
    build_for
        (some (Stmt.exprStmt (Expr.Assign "i" (Expr.Literal (Const.float ⟨0, 1⟩)))))
        (some (Expr.BinOp (Expr.Var "i") (Expr.Literal (Const.float ⟨3, 1⟩)) .lt))
        (some (Expr.Assign "i" (Expr.BinOp (Expr.Var "i") (Expr.Literal (Const.float ⟨1, 1⟩)) .add)))
        (Stmt.Print (Expr.Var "i"))
      = .error .tokenNameUndefined
    ∧ (∀ (cond incr : Expr) (body : Stmt),
        build_for none (some cond) (some incr) body
          = .ok (Stmt.Block [Stmt.While cond (Stmt.Block [body, Stmt.exprStmt incr])]))
    ∧ (∀ body : Stmt, build_for none none none body
          = .ok (Stmt.Block [Stmt.While (Expr.Literal (Const.bool true)) body]))
    ∧ (∀ (init : Stmt) (cond incr : Option Expr) (body : Stmt),
        build_for (some init) cond incr body = .error .tokenNameUndefined) :=
  ⟨rfl, fun _ _ _ => rfl, fun _ => rfl, fun _ _ _ _ => rfl⟩

/-! ## C5 -/

/-- C5: `And.eval` returns the left value, with exactly the left
operand's effects on the store, whenever the left value is falsy — the
right operand expression is arbitrary and untouched — and evaluates the
right operand exactly when the left is truthy; `Or.eval` mirrors this
with truthy and falsy exchanged. -/
theorem and_or_short_circuit :
    (∀ fuel l r env σ v σ1, evalExpr fuel l env σ = .ok (v, σ1) → is_truthy v = false →
       evalExpr (fuel + 1) (Expr.And l r) env σ = .ok (v, σ1))
    ∧ (∀ fuel l r env σ v σ1, evalExpr fuel l env σ = .ok (v, σ1) → is_truthy v = true →
       evalExpr (fuel + 1) (Expr.And l r) env σ = evalExpr fuel r env σ1)
    ∧ (∀ fuel l r env σ v σ1, evalExpr fuel l env σ = .ok (v, σ1) → is_truthy v = true →
       evalExpr (fuel + 1) (Expr.Or l r) env σ = .ok (v, σ1))
    ∧ (∀ fuel l r env σ v σ1, evalExpr fuel l env σ = .ok (v, σ1) → is_truthy v = false →
       evalExpr (fuel + 1) (Expr.Or l r) env σ = evalExpr fuel r env σ1) := by
  refine ⟨?_, ?_, ?_, ?_⟩ <;>
    · intro fuel l r env σ v σ1 hl hv
      simp [evalExpr, hl, hv]

/-- Witness for C5: the short-circuited right operand here is an
assignment to an undefined variable, whose evaluation would fail with
UndefinedVariable — yet the conjunction evaluates to the left value with
the store untouched, so the right side was never evaluated. -/
theorem and_or_short_circuit_witness :
    evalExpr 5 (Expr.And (Expr.Literal (Const.bool false))
        (Expr.Assign "x" (Expr.Literal (Const.float ⟨9, 1⟩)))) 0 initStore
      = .ok (.bool false, initStore)
    ∧ evalExpr 5 (Expr.Or (Expr.Literal (Const.bool true))
        (Expr.Assign "x" (Expr.Literal (Const.float ⟨9, 1⟩)))) 0 initStore
      = .ok (.bool true, initStore) :=
  ⟨and_or_short_circuit.1 4 _ _ 0 initStore (.bool false) initStore rfl rfl,
   and_or_short_circuit.2.2.1 4 _ _ 0 initStore (.bool true) initStore rfl rfl⟩

/-! ## C8 -/

/-- C8: `DoWhileStmt.eval` runs its body before looking at the
condition, so a body execution followed by a falsy condition terminates
the loop after exactly that one execution; `While.eval` checks the
condition first, so a falsy condition means the body is never
evaluated. -/
theorem do_while_once_while_zero :
    (∀ fuel body cond env σ σ1 v σ2,
       evalStmt fuel body env σ = .ok (.next, σ1) →
       evalExpr fuel cond env σ1 = .ok (v, σ2) →
       is_truthy v = false →
       evalStmt (fuel + 1) (Stmt.DoWhileStmt body cond) env σ = .ok (.next, σ2))
    ∧ (∀ fuel cond body env σ v σ1,
       evalExpr fuel cond env σ = .ok (v, σ1) →
       is_truthy v = false →
       evalStmt (fuel + 1) (Stmt.While cond body) env σ = .ok (.next, σ1)) := by
  constructor
  · intro fuel body cond env σ σ1 v σ2 hb hc hv
    simp [evalStmt, hb, hc, hv]
  · intro fuel cond body env σ v σ1 hc hv
    simp [evalStmt, hc, hv]

/-- Witness for C8: with an initially false condition, the do-while
around a print emits exactly one line while the while emits none. -/
theorem do_while_once_while_zero_witness :
    evalStmt 5 (Stmt.DoWhileStmt (Stmt.Print (Expr.Literal (Const.float ⟨7, 1⟩)))
        (Expr.Literal (Const.bool false))) 0 initStore
      = .ok (.next, ⟨[⟨[], none⟩], [], ["7"]⟩)
    ∧ evalStmt 5 (Stmt.While (Expr.Literal (Const.bool false))
        (Stmt.Print (Expr.Literal (Const.float ⟨7, 1⟩)))) 0 initStore
      = .ok (.next, initStore) :=
  ⟨do_while_once_while_zero.1 4 _ _ 0 initStore ⟨[⟨[], none⟩], [], ["7"]⟩ (.bool false)
      ⟨[⟨[], none⟩], [], ["7"]⟩ rfl rfl rfl,
   do_while_once_while_zero.2 4 _ _ 0 initStore (.bool false) initStore rfl rfl⟩

/-! ## C9 -/

/-- C9: the `!` rule binds `operator.not_`, host boolean negation, so
`UnaryOp.eval` negates CPython truthiness rather than the language's
`is_truthy`: on the number 0 and on the empty string it yields true even
though `is_truthy` maps both to true — so for these operands the result
differs from the negation of the language truthiness predicate. -/
theorem unary_not_uses_host_negation :
    evalExpr 2 (Expr.UnaryOp .not_ (Expr.Literal (Const.float ⟨0, 1⟩))) 0 initStore
      = .ok (.bool true, initStore)
    ∧ evalExpr 2 (Expr.UnaryOp .not_ (Expr.Literal (Const.str ""))) 0 initStore
      = .ok (.bool true, initStore)
    ∧ is_truthy (.float ⟨0, 1⟩) = true
    ∧ is_truthy (.str "") = true
    ∧ Value.bool (!is_truthy (.float ⟨0, 1⟩)) = .bool false
    ∧ Value.bool (!is_truthy (.str "")) = .bool false
    ∧ (Value.bool true ≠ Value.bool false)
    ∧ (∀ v : Value, applyUn .not_ v = .ok (.bool (!pythonBool v))) :=
  ⟨rfl, rfl, rfl, rfl, rfl, rfl, by decide, fun _ => rfl⟩

/-! ## C10 -/

/-- C10: `auto_convert` leaves nil — and every value that is not a
string, float or bool — untouched for every name, so `VarDef.eval`
without an initializer stores the nil marker itself under an
implicit-int name, and looking the name up afterwards yields nil, not
0. -/
theorem vardef_without_initializer_stores_nil :
    (∀ name, auto_convert name .nil = .nil)
    ∧ (∀ name n, auto_convert name (.int n) = .int n)
    ∧ (∀ name id, auto_convert name (.fn id) = .fn id)
    ∧ (∀ fuel name ta env σ,
        evalStmt (fuel + 1) (Stmt.VarDef name none ta) env σ
          = .ok (.next, σ.defineIn env (.name name) Value.nil))
    ∧ (∀ (σ : Store) (env : Nat) (name : String) (sc : List (BindKey × Value))
          (par : Option Nat), σ.envs[env]? = some ⟨sc, par⟩ →
        (σ.defineIn env (.name name) .nil).lookupIn env name = .ok .nil) := by
  refine ⟨auto_convert_nil, auto_convert_int, auto_convert_fn, ?_, ?_⟩
  · intro fuel name ta env σ
    simp [evalStmt, auto_convert_nil]
  · intro σ env name sc par h
    have hlt : env < σ.envs.length := by
      obtain ⟨hl, -⟩ := List.getElem?_eq_some.mp h
      exact hl
    simp [Store.defineIn, Store.lookupIn, lookupAux, h,
      List.getElem?_set_eq_of_lt _ hlt, scopeFind_scopeSet]

/-- Witness for C10 at the name `i` in the initial store. -/
theorem vardef_without_initializer_stores_nil_witness :
    evalStmt 2 (Stmt.VarDef "i" none none) 0 initStore
      = .ok (.next, initStore.defineIn 0 (.name "i") Value.nil)
    ∧ (initStore.defineIn 0 (.name "i") Value.nil).lookupIn 0 "i" = .ok .nil :=
  ⟨vardef_without_initializer_stores_nil.2.2.2.1 1 "i" none 0 initStore,
   vardef_without_initializer_stores_nil.2.2.2.2 initStore 0 "i" [] none rfl⟩

/-! ## C4 -/

/-- C4: for every target name starting with i, j, k, l, m or n,
`auto_convert` turns the float 3.0 into the int 3, the digit string "5"
into 5, the boolean true into 1 (and in general truncates floats, maps
bools to 0/1 and parses digit-only strings), while non-convertible
values such as "abc" pass through unchanged; and all three store sites —
`VarDef.eval`, `Assign.eval` and `Setattr.eval` — store exactly
`auto_convert` of the evaluated value, keyed on the target name or
attribute. -/
theorem auto_coercion_on_every_store :
    (∀ name, is_implicit_int name = true →
       auto_convert name (.float ⟨3, 1⟩) = .int 3
       ∧ auto_convert name (.str "5") = .int 5
       ∧ auto_convert name (.bool true) = .int 1
       ∧ auto_convert name (.str "abc") = .str "abc"
       ∧ (∀ x : PyFloat, auto_convert name (.float x) = .int x.toInt)
       ∧ (∀ b : Bool, auto_convert name (.bool b) = .int (if b then 1 else 0))
       ∧ (∀ s, isdigitStr s = true → auto_convert name (.str s) = .int (strToInt s))
       ∧ (∀ s, isdigitStr s = false → auto_convert name (.str s) = .str s))
    ∧ (∀ fuel name e ta env σ v σ1, evalExpr fuel e env σ = .ok (v, σ1) →
        evalStmt (fuel + 1) (Stmt.VarDef name (some e) ta) env σ
          = .ok (.next, σ1.defineIn env (.name name) (auto_convert name v)))
    ∧ (∀ fuel name e env σ v σ1 σ2, evalExpr fuel e env σ = .ok (v, σ1) →
        σ1.assignChain env name (auto_convert name v) = .ok σ2 →
        evalExpr (fuel + 1) (Expr.Assign name e) env σ
          = .ok (auto_convert name v, σ2))
    ∧ (∀ fuel objE attr e env σ id σ1 v σ2,
        evalExpr fuel objE env σ = .ok (.fn id, σ1) →
        evalExpr fuel e env σ1 = .ok (v, σ2) →
        evalExpr (fuel + 1) (Expr.Setattr objE attr e) env σ
          = .ok (auto_convert attr v, σ2.setFnAttr id attr (auto_convert attr v))) := by
  refine ⟨?_, ?_, ?_, ?_⟩
  · intro name h
    refine ⟨?_, ?_, ?_, ?_, ?_, ?_, ?_, ?_⟩
    · simp [auto_convert, h]
      rfl
    · simp [auto_convert, h]
      rfl
    · simp [auto_convert, h]
    · simp [auto_convert, h]
      rfl
    · intro x
      simp [auto_convert, h]
    · intro b
      simp [auto_convert, h]
    · intro s hs
      simp [auto_convert, h, hs]
    · intro s hs
      simp [auto_convert, h, hs]
  · intro fuel name e ta env σ v σ1 he
    simp [evalStmt, he]
  · intro fuel name e env σ v σ1 σ2 he ha
    simp [evalExpr, he, ha]
  · intro fuel objE attr e env σ id σ1 v σ2 ho he
    simp [evalExpr, ho, he]

/-- Witness for C4: every conversion at the concrete names i, j, k, m,
and each store site run on a concrete store. -/
theorem auto_coercion_on_every_store_witness :
    auto_convert "i" (.float ⟨3, 1⟩) = .int 3
    ∧ auto_convert "j" (.str "5") = .int 5
    ∧ auto_convert "k" (.bool true) = .int 1
    ∧ auto_convert "m" (.str "abc") = .str "abc"
    ∧ evalStmt 2 (Stmt.VarDef "i" (some (Expr.Literal (Const.float ⟨3, 1⟩))) none) 0 initStore
        = .ok (.next, initStore.defineIn 0 (.name "i") (auto_convert "i" (.float ⟨3, 1⟩)))
    ∧ evalExpr 2 (Expr.Assign "k" (Expr.Literal (Const.bool true))) 0
          ⟨[⟨[(.name "k", .nil)], none⟩], [], []⟩
        = .ok (auto_convert "k" (.bool true), ⟨[⟨[(.name "k", .int 1)], none⟩], [], []⟩)
    ∧ evalExpr 2 (Expr.Setattr (Expr.Var "g") "n" (Expr.Literal (Const.float ⟨3, 1⟩))) 0
          ⟨[⟨[(.name "g", .fn 0)], none⟩], [⟨"g", [], [], 0, []⟩], []⟩
        = .ok (auto_convert "n" (.float ⟨3, 1⟩),
            (⟨[⟨[(.name "g", .fn 0)], none⟩], [⟨"g", [], [], 0, []⟩], []⟩ : Store).setFnAttr
              0 "n" (auto_convert "n" (.float ⟨3, 1⟩))) :=
  ⟨(auto_coercion_on_every_store.1 "i" rfl).1,
   (auto_coercion_on_every_store.1 "j" rfl).2.1,
   (auto_coercion_on_every_store.1 "k" rfl).2.2.1,
   (auto_coercion_on_every_store.1 "m" rfl).2.2.2.1,
   auto_coercion_on_every_store.2.1 1 "i" _ none 0 initStore _ initStore rfl,
   auto_coercion_on_every_store.2.2.1 1 "k" _ 0 _ (.bool true)
     ⟨[⟨[(.name "k", .nil)], none⟩], [], []⟩ ⟨[⟨[(.name "k", .int 1)], none⟩], [], []⟩ rfl rfl,
   auto_coercion_on_every_store.2.2.2 1 _ "n" _ 0 _ 0
     ⟨[⟨[(.name "g", .fn 0)], none⟩], [⟨"g", [], [], 0, []⟩], []⟩ (.float ⟨3, 1⟩) _ rfl rfl⟩

/-! ## C7 -/

/-- C7: a `Call` whose callee value is not callable fails with the
NotCallable error carrying the callee expression (after the callee and
all arguments evaluate), and a call of a function object whose argument
count differs from its parameter count fails with the ArityError
carrying the expected and the actual counts — both directly at
`LoxFunction.call` and through a `Call` node. -/
theorem call_not_callable_and_arity_errors :
    (∀ fuel obj argEs env σ v σ1 vs σ2,
       evalExpr fuel obj env σ = .ok (v, σ1) →
       evalExprs fuel argEs env σ1 = .ok (vs, σ2) →
       isCallable v = false →
       evalExpr (fuel + 1) (Expr.Call obj argEs) env σ = .error (.notCallable obj))
    ∧ (∀ fuel f args σ, args.length ≠ f.params.length →
       LoxFunction.call (fuel + 1) f args σ = .error (.arity f.params.length args.length))
    ∧ (∀ fuel obj argEs env σ id σ1 vs σ2 f,
       evalExpr (fuel + 1) obj env σ = .ok (.fn id, σ1) →
       evalExprs (fuel + 1) argEs env σ1 = .ok (vs, σ2) →
       σ2.funcs[id]? = some f →
       vs.length ≠ f.params.length →
       evalExpr (fuel + 2) (Expr.Call obj argEs) env σ
         = .error (.arity f.params.length vs.length)) := by
  refine ⟨?_, ?_, ?_⟩
  · intro fuel obj argEs env σ v σ1 vs σ2 ho ha hv
    cases v <;> simp_all [evalExpr, isCallable]
  · intro fuel f args σ h
    simp [LoxFunction.call, h]
  · intro fuel obj argEs env σ id σ1 vs σ2 f ho ha hf hn
    have hstep : evalExpr (fuel + 2) (Expr.Call obj argEs) env σ =
        (match evalExpr (fuel + 1) obj env σ with
         | .error er => .error er
         | .ok (ov, s1) =>
           match evalExprs (fuel + 1) argEs env s1 with
           | .error er => .error er
           | .ok (argv, s2) =>
             match ov with
             | .fn i =>
               match s2.funcs[i]? with
               | some g => LoxFunction.call (fuel + 1) g argv s2
               | none => .error .internalBadFnRef
             | _ => .error (.notCallable obj)) := rfl
    rw [hstep]
    simp [ho, ha, hf, LoxFunction.call, hn]

/-- Witness for C7: calling the number 1.0 fails with NotCallable
naming the literal; calling a one-parameter function with no arguments
fails with ArityError 1 expected, 0 given. -/
theorem call_not_callable_and_arity_errors_witness :
    evalExpr 5 (Expr.Call (Expr.Literal (Const.float ⟨1, 1⟩)) []) 0 initStore
      = .error (.notCallable (Expr.Literal (Const.float ⟨1, 1⟩)))
    ∧ LoxFunction.call 3 ⟨"g", [⟨"a", none⟩], [], 0, []⟩ [] initStore
      = .error (.arity 1 0) :=
  ⟨call_not_callable_and_arity_errors.1 4 _ [] 0 initStore (.float ⟨1, 1⟩) initStore []
      initStore rfl rfl rfl,
   call_not_callable_and_arity_errors.2.1 2 ⟨"g", [⟨"a", none⟩], [], 0, []⟩ [] initStore
     (by decide)⟩

/-! ## C1 -/

/-- Counterexample to C1: in the program
`fun f(x) { var y = 2.0; } f(1.0);` the call frame is environment 1
(holding the parameter binding, parent = closure 0), yet the body's
top-level local `y` is defined in environment 2 — a nested child created
beneath the frame with parent 1 — so the body block was NOT evaluated
directly against the call-frame environment, and parameters and
top-level body locals do not share one binding table ("y" is absent from
the frame's table). -/
theorem call_body_nested_env_counterexample :
    evalProgram 20
        [Stmt.Function "f" [⟨"x", none⟩]
           [Stmt.VarDef "y" (some (Expr.Literal (Const.float ⟨2, 1⟩))) none],
         Stmt.exprStmt (Expr.Call (Expr.Var "f") [Expr.Literal (Const.float ⟨1, 1⟩)])]
        initStore
      = .ok (.next,
          ⟨[⟨[(.name "f", .fn 0)], none⟩,
            ⟨[(.param ⟨"x", none⟩, .float ⟨1, 1⟩)], some 0⟩,
            ⟨[(.name "y", .float ⟨2, 1⟩)], some 1⟩],
           [⟨"f", [⟨"x", none⟩],
             [Stmt.VarDef "y" (some (Expr.Literal (Const.float ⟨2, 1⟩))) none], 0, []⟩],
           []⟩)
    ∧ scopeFind [(BindKey.param ⟨"x", none⟩, Value.float ⟨1, 1⟩)] (.name "y") = none
    ∧ scopeFind [(BindKey.name "y", Value.float ⟨2, 1⟩)] (.name "y") = some (.float ⟨2, 1⟩)
    ∧ (2 : Nat) ≠ 1 :=
  ⟨rfl, rfl, rfl, by decide⟩

/-- C1 (amended): `LoxFunction.call` builds the call frame (a fresh
environment whose parent is the captured closure, holding the parameter
bindings) and then evaluates the body as a `Block` node against the
frame; `Block.eval` always creates one further nested child environment
(fresh and empty, parent = the environment it was given) and evaluates
its statements there — so top-level body locals live in a child of the
frame, not in the frame's own binding table. -/
theorem call_evaluates_body_in_fresh_child_of_frame :
    (∀ fuel stmts env σ,
       evalStmt (fuel + 1) (Stmt.Block stmts) env σ
         = evalStmts fuel stmts σ.envs.length (σ.pushEnv (some env)))
    ∧ (∀ (σ : Store) (parent : Option Nat),
       (σ.pushEnv parent).envs[σ.envs.length]? = some ⟨[], parent⟩)
    ∧ (∀ fuel f args σ, args.length = f.params.length →
       LoxFunction.call (fuel + 1) f args σ
         = match evalStmt fuel (Stmt.Block f.body) σ.envs.length
                   (bindParams (σ.pushEnv (some f.closure)) σ.envs.length f.params args) with
           | .error er => .error er
           | .ok (.ret v, σ2) => .ok (v, σ2)
           | .ok (.next, σ2) => .ok (.nil, σ2)) := by
  refine ⟨fun fuel stmts env σ => rfl, ?_, ?_⟩
  · intro σ parent
    simp [Store.pushEnv]
  · intro fuel f args σ h
    simp [LoxFunction.call, h]

/-- Witness for C1 (amended) at a concrete zero-parameter function. -/
theorem call_evaluates_body_in_fresh_child_of_frame_witness :
    LoxFunction.call 3 ⟨"g", [], [], 0, []⟩ [] initStore
      = match evalStmt 2 (Stmt.Block []) 1
                (bindParams (initStore.pushEnv (some 0)) 1 [] []) with
        | .error er => .error er
        | .ok (.ret v, σ2) => .ok (v, σ2)
        | .ok (.next, σ2) => .ok (.nil, σ2) :=
  call_evaluates_body_in_fresh_child_of_frame.2.2 2 ⟨"g", [], [], 0, []⟩ [] initStore rfl

/-! ## C6 -/

/-- Counterexample to C6: a return statement at top level, outside every
function call, is not consumed anywhere — program evaluation itself
finishes with the return signal still in flight (Python's LoxReturn
exception propagates out of `Program.eval` to whatever invoked the
evaluator), so the signal IS visible to code outside the evaluator. -/
theorem top_level_return_escapes_program :
    evalProgram 5 [Stmt.Return (some (Expr.Literal (Const.float ⟨2, 1⟩)))] initStore
      = .ok (.ret (.float ⟨2, 1⟩), initStore)
    ∧ Ctrl.ret (Value.float ⟨2, 1⟩) ≠ Ctrl.next :=
  ⟨rfl, by decide⟩

/-- C6 (amended): `Return.eval` raises the signal with the evaluated
value (nil when the value expression is absent); the signal aborts the
remainder of any statement sequence it crosses; and at the nearest
function-call boundary it is fully consumed — the call produces the
carried value, and a body that completes without returning produces nil.
A return outside any call, however, escapes program evaluation to the
host caller. -/
theorem return_unwinds_to_nearest_call :
    (∀ fuel env σ, evalStmt (fuel + 1) (Stmt.Return none) env σ = .ok (.ret .nil, σ))
    ∧ (∀ fuel e env σ v σ1, evalExpr fuel e env σ = .ok (v, σ1) →
        evalStmt (fuel + 1) (Stmt.Return (some e)) env σ = .ok (.ret v, σ1))
    ∧ (∀ fuel s rest env σ v σ1, evalStmt fuel s env σ = .ok (.ret v, σ1) →
        evalStmts (fuel + 1) (s :: rest) env σ = .ok (.ret v, σ1))
    ∧ (∀ fuel f args σ v σ2, args.length = f.params.length →
        evalStmt fuel (Stmt.Block f.body) σ.envs.length
            (bindParams (σ.pushEnv (some f.closure)) σ.envs.length f.params args)
          = .ok (.ret v, σ2) →
        LoxFunction.call (fuel + 1) f args σ = .ok (v, σ2))
    ∧ (∀ fuel f args σ σ2, args.length = f.params.length →
        evalStmt fuel (Stmt.Block f.body) σ.envs.length
            (bindParams (σ.pushEnv (some f.closure)) σ.envs.length f.params args)
          = .ok (.next, σ2) →
        LoxFunction.call (fuel + 1) f args σ = .ok (.nil, σ2)) := by
  refine ⟨fun fuel env σ => rfl, ?_, ?_, ?_, ?_⟩
  · intro fuel e env σ v σ1 he
    simp [evalStmt, he]
  · intro fuel s rest env σ v σ1 hs
    simp [evalStmts, hs]
  · intro fuel f args σ v σ2 hlen hb
    simp [LoxFunction.call, hlen, hb]
  · intro fuel f args σ σ2 hlen hb
    simp [LoxFunction.call, hlen, hb]

/-- Witness for C6 (amended): a call of `fun g() { return 42.0; }`
produces 42.0, and a call of a function whose body has no return
produces nil. -/
theorem return_unwinds_to_nearest_call_witness :
    LoxFunction.call 10
        ⟨"g", [], [Stmt.Return (some (Expr.Literal (Const.float ⟨42, 1⟩)))], 0, []⟩ [] initStore
      = .ok (.float ⟨42, 1⟩, ⟨[⟨[], none⟩, ⟨[], some 0⟩, ⟨[], some 1⟩], [], []⟩)
    ∧ LoxFunction.call 10 ⟨"h", [], [], 0, []⟩ [] initStore
      = .ok (.nil, ⟨[⟨[], none⟩, ⟨[], some 0⟩, ⟨[], some 1⟩], [], []⟩) :=
  ⟨return_unwinds_to_nearest_call.2.2.2.1 9
      ⟨"g", [], [Stmt.Return (some (Expr.Literal (Const.float ⟨42, 1⟩)))], 0, []⟩ [] initStore
      (.float ⟨42, 1⟩) ⟨[⟨[], none⟩, ⟨[], some 0⟩, ⟨[], some 1⟩], [], []⟩ rfl rfl,
   return_unwinds_to_nearest_call.2.2.2.2 9 ⟨"h", [], [], 0, []⟩ [] initStore
      ⟨[⟨[], none⟩, ⟨[], some 0⟩, ⟨[], some 1⟩], [], []⟩ rfl rfl⟩

/-! ## C2 -/

/-- Counterexample to C2: with `var i = 2.0;` the store holds the int 2
(auto-coercion), and evaluating `i + 2.0` then yields the float 4.0, not
an integer representation — although both operand values (int 2 and
float 2.0) are whole-valued numbers and the raw result 4.0 is a
whole-valued number.  The collapse tests `isinstance(..., float)` on
both operands, so an int operand defeats it. -/
theorem binop_int_operand_defeats_collapse :
    evalProgram 20
        [Stmt.VarDef "i" (some (Expr.Literal (Const.float ⟨2, 1⟩))) none,
         Stmt.VarDef "z"
           (some (Expr.BinOp (Expr.Var "i") (Expr.Literal (Const.float ⟨2, 1⟩)) .add)) none]
        initStore
      = .ok (.next, ⟨[⟨[(.name "i", .int 2), (.name "z", .float ⟨4, 1⟩)], none⟩], [], []⟩)
    ∧ applyBin .add (.int 2) (.float ⟨2, 1⟩) = .ok (.float ⟨4, 1⟩)
    ∧ evalBinVals .add (.int 2) (.float ⟨2, 1⟩) = .ok (.float ⟨4, 1⟩)
    ∧ wholeNumber (.int 2) = true
    ∧ wholeNumber (.float ⟨2, 1⟩) = true
    ∧ wholeNumber (.float ⟨4, 1⟩) = true
    ∧ isIntValue (.float ⟨4, 1⟩) = false :=
  ⟨rfl, rfl, rfl, rfl, rfl, rfl, rfl⟩

theorem pyfloat_isInteger_iff (x : PyFloat) :
    x.isInteger = true ↔ ((x.den : Int) ∣ x.num) := by
  unfold PyFloat.isInteger
  rw [beq_iff_eq, Int.dvd_iff_emod_eq_zero]

theorem pyfloat_toInt_exact (x : PyFloat) (h : x.isInteger = true) :
    x.toInt * (x.den : Int) = x.num := by
  rw [pyfloat_isInteger_iff] at h
  exact Int.tdiv_mul_cancel h

/-- C2 (amended): the conversion of `BinOp.eval` fires exactly when both
operand values are floats that are whole-valued and the raw result is a
float: (i) whole float operands with a float raw result always collapse
to the int truncation of the raw result; (ii) whenever the operands are
not two whole-valued floats the raw result is returned unchanged — in
particular a whole-valued int operand leaves a float result
uncollapsed; (iii) for the arithmetic operations add, sub, mul and
floor-division on whole-valued float operands, the raw float result is
itself whole-valued, and (iv) the truncation then represents exactly the
raw value. -/
theorem binop_collapse_exactly_for_float_operands :
    (∀ (op : BinTag) (lx rx res : PyFloat),
       lx.isInteger = true → rx.isInteger = true →
       applyBin op (.float lx) (.float rx) = .ok (.float res) →
       evalBinVals op (.float lx) (.float rx) = .ok (.int res.toInt))
    ∧ (∀ (op : BinTag) (lv rv : Value),
       (floatWhole lv && floatWhole rv) = false →
       evalBinVals op lv rv = applyBin op lv rv)
    ∧ (∀ (op : BinTag), (op = .add ∨ op = .sub ∨ op = .mul ∨ op = .floordiv) →
       ∀ (lx rx res : PyFloat), lx.isInteger = true → rx.isInteger = true →
       applyBin op (.float lx) (.float rx) = .ok (.float res) →
       res.isInteger = true)
    ∧ (∀ x : PyFloat, x.isInteger = true → x.toInt * (x.den : Int) = x.num) := by
  refine ⟨?_, ?_, ?_, pyfloat_toInt_exact⟩
  · intro op lx rx res hl hr happ
    simp [evalBinVals, happ, hl, hr]
  · intro op lv rv h
    unfold evalBinVals
    cases happ : applyBin op lv rv with
    | error er => rfl
    | ok res =>
      cases lv <;> cases rv <;> try rfl
      cases res <;> simp_all [floatWhole]
  · intro op hop lx rx res hl hr happ
    rw [pyfloat_isInteger_iff] at hl hr ⊢
    obtain hop | hop | hop | hop := hop <;> subst hop
    · simp [applyBin, numeric2, Value.asIntish, Value.asNum] at happ
      subst happ
      simp [PyFloat.add]
      refine dvd_add ?_ ?_
      · exact mul_dvd_mul_right hl _
      · rw [mul_comm rx.num (lx.den : Int)]
        exact mul_dvd_mul_left _ hr
    · simp [applyBin, numeric2, Value.asIntish, Value.asNum] at happ
      subst happ
      simp [PyFloat.sub]
      refine dvd_sub ?_ ?_
      · exact mul_dvd_mul_right hl _
      · rw [mul_comm rx.num (lx.den : Int)]
        exact mul_dvd_mul_left _ hr
    · simp [applyBin, numeric2, Value.asIntish, Value.asNum] at happ
      subst happ
      simp [PyFloat.mul]
      exact mul_dvd_mul hl hr
    · by_cases hy : rx.num = 0
      · simp [applyBin, Value.asIntish, Value.asNum, hy] at happ
      · simp [applyBin, Value.asIntish, Value.asNum, hy] at happ
        subst happ
        simp [PyFloat.ofInt]

/-- Witness for C2 (amended): 2.0 + 2.0 collapses to the int 4, while
the int 2 plus the float 2.0 stays the float 4.0. -/
theorem binop_collapse_exactly_for_float_operands_witness :
    evalBinVals .add (.float ⟨2, 1⟩) (.float ⟨2, 1⟩) = .ok (.int 4)
    ∧ evalBinVals .add (.int 2) (.float ⟨2, 1⟩) = applyBin .add (.int 2) (.float ⟨2, 1⟩)
    ∧ PyFloat.isInteger (PyFloat.add ⟨2, 1⟩ ⟨2, 1⟩) = true :=
  ⟨binop_collapse_exactly_for_float_operands.1 .add ⟨2, 1⟩ ⟨2, 1⟩ ⟨4, 1⟩ rfl rfl rfl,
   binop_collapse_exactly_for_float_operands.2.1 .add (.int 2) (.float ⟨2, 1⟩) rfl,
   binop_collapse_exactly_for_float_operands.2.2.1 .add (.inl rfl) ⟨2, 1⟩ ⟨2, 1⟩
     (PyFloat.add ⟨2, 1⟩ ⟨2, 1⟩) rfl rfl rfl⟩

end Lox
